import Mathlib

/-!
Verification of the dubora pipeline / calibration-IDE specification against
a shallow embedding of the repository's Python sources.

Embedding conventions:
- Python `int` is embedded as `Int`; Python `str` as `String`.
- Python dictionaries read with `.get(key, default)` are embedded as
  structures whose fields are `Option`-valued; `Option.getD` mirrors the
  default.  A JSON `null` value and an absent key are conflated (both map
  to `none`), which agrees with the `.get` semantics at every call site
  the claims touch.
- SHA-256 itself is opaque to every claim (the claims are about what is
  hashed, never about the digest function), so hashing functions take the
  digest function `sha : String → String` as an explicit parameter.
-/

/-- Flags on a calibration segment (`AsrSegmentFlags` in
`dubora/schema/asr_model.py`). -/
structure AsrSegmentFlags where
  overlap : Bool := false
  needs_review : Bool := false
deriving DecidableEq, Repr

/-- Model of a Python `dict` used for `tts_policy` payloads: an association
list of string keys to string values.  Its content is opaque to the code
under verification; only presence/emptiness matter. -/
abbrev TtsPolicyDict : Type := List (String × String)

/-- A calibration segment (`AsrSegment` in `dubora/schema/asr_model.py`). -/
structure AsrSegment where
  id : String
  start_ms : Int
  end_ms : Int
  text : String
  speaker : String
  text_en : String := ""
  emotion : String := "neutral"
  type : String := "speech"
  gender : Option String := none
  tts_policy : Option TtsPolicyDict := none
  flags : AsrSegmentFlags := {}
deriving DecidableEq, Repr

/-- Media metadata (`AsrMediaInfo`). -/
structure AsrMediaInfo where
  duration_ms : Int := 0
deriving DecidableEq, Repr

/-- Edit history metadata (`AsrHistory`). -/
structure AsrHistory where
  rev : Int := 1
  created_at : String := ""
  updated_at : String := ""
deriving DecidableEq, Repr

/-- Content fingerprint record (`AsrFingerprint`). -/
structure AsrFingerprint where
  algo : String := "sha256"
  value : String := ""
  scope : String := "segments"
deriving DecidableEq, Repr

/-- The CalDoc working document (`AsrModel` in
`dubora/schema/asr_model.py`). -/
structure AsrModel where
  schema : String := "asr.model.v2"
  media : AsrMediaInfo := {}
  segments : List AsrSegment := []
  history : AsrHistory := {}
  fingerprint : AsrFingerprint := {}
deriving DecidableEq, Repr

/-- Python's `sep.join(parts)`. -/
def pyJoin (sep : String) : List String → String
  | [] => ""
  | [x] => x
  | x :: xs => x ++ sep ++ pyJoin sep xs

/-- The per-segment line built inside `AsrModel.compute_fingerprint`
(the f-string
  `f"{seg.id}|{seg.start_ms}|{seg.end_ms}|{seg.text}|{seg.text_en}|{seg.speaker}|{seg.emotion}"`). -/
def AsrSegment.fpLine (seg : AsrSegment) : String :=
  seg.id ++ "|" ++ toString seg.start_ms ++ "|" ++ toString seg.end_ms ++ "|" ++
    seg.text ++ "|" ++ seg.text_en ++ "|" ++ seg.speaker ++ "|" ++ seg.emotion

/-- `AsrModel.compute_fingerprint`: appends one line per segment in file
order, joins them with a newline, and hashes the result.  `sha` is the
SHA-256 hex-digest function, kept abstract. -/
def AsrModel.compute_fingerprint (sha : String → String) (m : AsrModel) : String :=
  let parts := m.segments.map AsrSegment.fpLine
  sha (pyJoin "\n" parts)

/-- `AsrModel.update_fingerprint`: recompute and store the fingerprint
value. -/
def AsrModel.update_fingerprint (sha : String → String) (m : AsrModel) : AsrModel :=
  { m with fingerprint := { m.fingerprint with value := m.compute_fingerprint sha } }

/-- `AsrModel.bump_rev`: increment the revision and stamp `updated_at`
with the current time (`now` passed explicitly in this pure embedding). -/
def AsrModel.bump_rev (now : String) (m : AsrModel) : AsrModel :=
  { m with history := { m.history with rev := m.history.rev + 1, updated_at := now } }

/-- Indices (positions in the original `segments` list) that the loop in
`AsrModel.detect_overlaps` marks as overlapping: walking the
start-sorted sequence, whenever a segment starts before the previous one
ends, both get marked. -/
def overlapMarks : List (Nat × AsrSegment) → List Nat
  | a :: b :: rest =>
      if b.2.start_ms < a.2.end_ms then
        a.1 :: b.1 :: overlapMarks (b :: rest)
      else
        overlapMarks (b :: rest)
  | _ => []

/-- `AsrModel.detect_overlaps`: clear all overlap flags, then mark the
overlap flag on every pair of adjacent segments (in start-time order,
stable on ties as Python's `sorted`) whose time ranges intersect. -/
def AsrModel.detect_overlaps (m : AsrModel) : AsrModel :=
  let cleared := m.segments.map
    (fun s => { s with flags := { s.flags with overlap := false } })
  let sortedSegs := cleared.enum.mergeSort
    (fun a b => a.2.start_ms ≤ b.2.start_ms)
  let marks := overlapMarks sortedSegs
  let marked := cleared.enum.map
    (fun p => if p.1 ∈ marks then
        { p.2 with flags := { p.2.flags with overlap := true } }
      else p.2)
  { m with segments := marked }

/-- The seven fields of a segment that participate in the content
fingerprint. -/
def AsrSegment.core (s : AsrSegment) :
    String × Int × Int × String × String × String × String :=
  (s.id, s.start_ms, s.end_ms, s.text, s.text_en, s.speaker, s.emotion)

/-- Canonical per-segment encoding, written from the spec's words: the
fields `id|start_ms|end_ms|text|text_translated|speaker|emotion` joined
by `"|"` (`text_en` is the document's translated-text field). -/
def specSegmentLine (s : AsrSegment) : String :=
  pyJoin "|" [s.id, toString s.start_ms, toString s.end_ms,
    s.text, s.text_en, s.speaker, s.emotion]

/-- Canonical document encoding, written from the spec's words: the
per-segment lines joined by `"\n"`, in file order. -/
def specCanonicalEncoding (segs : List AsrSegment) : String :=
  pyJoin "\n" (segs.map specSegmentLine)

theorem fpLine_eq_specSegmentLine (s : AsrSegment) :
    s.fpLine = specSegmentLine s := by
  simp [AsrSegment.fpLine, specSegmentLine, pyJoin, String.append_assoc]

theorem fpLine_eq_of_core {s t : AsrSegment} (h : s.core = t.core) :
    s.fpLine = t.fpLine := by
  simp only [AsrSegment.core, Prod.mk.injEq] at h
  obtain ⟨h1, h2, h3, h4, h5, h6, h7⟩ := h
  simp [AsrSegment.fpLine, h1, h2, h3, h4, h5, h6, h7]

theorem map_fpLine_eq_of_core :
    ∀ {l l' : List AsrSegment}, l.map AsrSegment.core = l'.map AsrSegment.core →
      l.map AsrSegment.fpLine = l'.map AsrSegment.fpLine
  | [], [], _ => rfl
  | a :: l, a' :: l', h => by
      simp only [List.map_cons, List.cons.injEq] at h ⊢
      exact ⟨fpLine_eq_of_core h.1, map_fpLine_eq_of_core h.2⟩

/-- C1: for every CalDoc, the computed content fingerprint is the digest of
the canonical segment encoding — per segment the fields
`id|start_ms|end_ms|text|text_en|speaker|emotion` joined by `"|"`, the
lines joined by `"\n"` in file order — and segments agreeing on those
seven fields (whatever their flags, type, gender, tts_policy, or the
document's media and history) yield the same fingerprint. -/
theorem c1_fingerprint_canonical (sha : String → String) (m m' : AsrModel)
    (h : m.segments.map AsrSegment.core = m'.segments.map AsrSegment.core) :
    m.compute_fingerprint sha = sha (specCanonicalEncoding m.segments) ∧
    m.compute_fingerprint sha = m'.compute_fingerprint sha := by
  constructor
  · simp only [AsrModel.compute_fingerprint, specCanonicalEncoding]
    congr 1
    exact congrArg (pyJoin "\n") (List.map_congr_left fun s _ => fpLine_eq_specSegmentLine s)
  · simp only [AsrModel.compute_fingerprint]
    exact congrArg sha (congrArg (pyJoin "\n") (map_fpLine_eq_of_core h))

/-! ### JSON-dict views of the CalDoc (`to_dict` / `from_dict`) -/

/-- Dict view of segment flags (`flags` object in the JSON document). -/
structure FlagsDict where
  overlap : Option Bool := none
  needs_review : Option Bool := none
deriving DecidableEq, Repr

/-- Dict view of one segment as serialized by `AsrModel.to_dict` /
consumed by `AsrModel.from_dict`.  `none` models an absent key. -/
structure SegDict where
  id : Option String := none
  start_ms : Option Int := none
  end_ms : Option Int := none
  text : Option String := none
  text_en : Option String := none
  speaker : Option String := none
  emotion : Option String := none
  type : Option String := none
  gender : Option String := none
  tts_policy : Option TtsPolicyDict := none
  flags : Option FlagsDict := none
deriving DecidableEq, Repr

/-- Dict view of the `media` object. -/
structure MediaDict where
  duration_ms : Option Int := none
deriving DecidableEq, Repr

/-- Dict view of the `history` object. -/
structure HistoryDict where
  rev : Option Int := none
  created_at : Option String := none
  updated_at : Option String := none
deriving DecidableEq, Repr

/-- Dict view of the `fingerprint` object. -/
structure FpDict where
  algo : Option String := none
  value : Option String := none
  scope : Option String := none
deriving DecidableEq, Repr

/-- Dict view of a whole CalDoc JSON document. -/
structure AsrDict where
  schema : Option String := none
  media : Option MediaDict := none
  segments : Option (List SegDict) := none
  history : Option HistoryDict := none
  fingerprint : Option FpDict := none
deriving DecidableEq, Repr

/-- The segment dict built inside `AsrModel.to_dict`.  The `tts_policy`
key is emitted only when the value is truthy (a non-`None`, non-empty
dict): `**({"tts_policy": seg.tts_policy} if seg.tts_policy else {})`. -/
def AsrSegment.toSegDict (seg : AsrSegment) : SegDict :=
  { id := some seg.id
    start_ms := some seg.start_ms
    end_ms := some seg.end_ms
    text := some seg.text
    text_en := some seg.text_en
    speaker := some seg.speaker
    emotion := some seg.emotion
    type := some seg.type
    gender := seg.gender
    tts_policy :=
      match seg.tts_policy with
      | some p => if p = [] then none else some p
      | none => none
    flags := some { overlap := some seg.flags.overlap
                    needs_review := some seg.flags.needs_review } }

/-- `AsrModel.to_dict`. -/
def AsrModel.to_dict (m : AsrModel) : AsrDict :=
  { schema := some m.schema
    media := some { duration_ms := some m.media.duration_ms }
    segments := some (m.segments.map AsrSegment.toSegDict)
    history := some { rev := some m.history.rev
                      created_at := some m.history.created_at
                      updated_at := some m.history.updated_at }
    fingerprint := some { algo := some m.fingerprint.algo
                          value := some m.fingerprint.value
                          scope := some m.fingerprint.scope } }

/-- One segment of `AsrModel.from_dict`: every field read with `.get` and
the source's default; a missing `id` receives a freshly generated one
(`freshId`, standing for `_gen_seg_id()`). -/
def AsrSegment.ofSegDict (freshId : String) (sd : SegDict) : AsrSegment :=
  let fd := sd.flags.getD {}
  { id := sd.id.getD freshId
    start_ms := sd.start_ms.getD 0
    end_ms := sd.end_ms.getD 0
    text := sd.text.getD ""
    text_en := sd.text_en.getD ""
    speaker := sd.speaker.getD "0"
    emotion := sd.emotion.getD "neutral"
    type := sd.type.getD "speech"
    gender := sd.gender
    tts_policy := sd.tts_policy
    flags := { overlap := (fd.overlap).getD false
               needs_review := (fd.needs_review).getD false } }

/-- `AsrModel.from_dict`.  `genId` supplies the fresh segment ids that
`_gen_seg_id()` would produce (one per segment position); the result's
`schema` is always `"asr.model.v2"` as in the source. -/
def AsrModel.from_dict (genId : Nat → String) (d : AsrDict) : AsrModel :=
  let md := d.media.getD {}
  let hd := d.history.getD {}
  let fpd := d.fingerprint.getD {}
  { schema := "asr.model.v2"
    media := { duration_ms := md.duration_ms.getD 0 }
    segments := (d.segments.getD []).mapIdx
      (fun i sd => AsrSegment.ofSegDict (genId i) sd)
    history := { rev := hd.rev.getD 1
                 created_at := hd.created_at.getD ""
                 updated_at := hd.updated_at.getD "" }
    fingerprint := { algo := fpd.algo.getD "sha256"
                     value := fpd.value.getD ""
                     scope := fpd.scope.getD "segments" } }

/-- `put_asr_model` (PUT `/episodes/{drama}/{ep}/asr-model` in
`dubora/web/api/asr_model.py`): parse the request body with `from_dict`,
then `bump_rev`, `detect_overlaps`, `update_fingerprint`; the resulting
model is what the endpoint atomically writes (as `to_dict`) and
returns. -/
def put_asr_model (genId : Nat → String) (sha : String → String)
    (now : String) (body : AsrDict) : AsrModel :=
  (((AsrModel.from_dict genId body).bump_rev now).detect_overlaps).update_fingerprint sha

/-! ### Helper lemmas about `put_asr_model` and the dict round trip -/

theorem compute_fingerprint_eq_of_core (sha : String → String) {m m' : AsrModel}
    (h : m.segments.map AsrSegment.core = m'.segments.map AsrSegment.core) :
    m.compute_fingerprint sha = m'.compute_fingerprint sha :=
  congrArg sha (congrArg (pyJoin "\n") (map_fpLine_eq_of_core h))

theorem update_fingerprint_value (sha : String → String) (m : AsrModel) :
    (m.update_fingerprint sha).fingerprint.value = m.compute_fingerprint sha := rfl

theorem compute_update_fingerprint (sha : String → String) (m : AsrModel) :
    (m.update_fingerprint sha).compute_fingerprint sha = m.compute_fingerprint sha := rfl

theorem to_dict_fp_value (m : AsrModel) :
    ((m.to_dict.fingerprint.getD {}).value.getD "") = m.fingerprint.value := rfl

theorem ofSegDict_toSegDict_core (fresh : String) (s : AsrSegment) :
    (AsrSegment.ofSegDict fresh s.toSegDict).core = s.core := rfl

theorem mapIdx_ofSegDict_core (g : Nat → String) :
    ∀ l : List AsrSegment,
      ((l.map AsrSegment.toSegDict).mapIdx
          (fun i sd => AsrSegment.ofSegDict (g i) sd)).map AsrSegment.core
        = l.map AsrSegment.core
  | [] => rfl
  | a :: l => by
      simp only [List.map_cons, List.mapIdx_cons]
      exact congrArg₂ List.cons (ofSegDict_toSegDict_core (g 0) a)
        (mapIdx_ofSegDict_core (fun i => g (i + 1)) l)

theorem from_to_dict_core (g : Nat → String) (m : AsrModel) :
    (AsrModel.from_dict g m.to_dict).segments.map AsrSegment.core
      = m.segments.map AsrSegment.core := by
  simp only [AsrModel.from_dict, AsrModel.to_dict, Option.getD_some]
  exact mapIdx_ofSegDict_core g m.segments

theorem put_asr_model_history (genId : Nat → String) (sha : String → String)
    (now : String) (body : AsrDict) :
    (put_asr_model genId sha now body).history
      = { rev := (body.history.getD {}).rev.getD 1 + 1
          created_at := (body.history.getD {}).created_at.getD ""
          updated_at := now } := rfl

/-- C2 counterexample: two successive saves through the PUT endpoint where
the second request body carries a stale revision.  The first save stores
`rev = 6`, the second stores `rev = 1`: the stored revision is not
strictly increasing across saves, because the endpoint bumps the
revision of the *submitted* document, not of the previously stored
one. -/
theorem c2_rev_monotonicity_counterexample :
    (put_asr_model (fun _ => "g") (fun _ => "h") "t1"
        { history := some { rev := some 5 } }).history.rev = 6 ∧
    (put_asr_model (fun _ => "g") (fun _ => "h") "t2"
        { history := some { rev := some 0 } }).history.rev = 1 ∧
    ¬ (put_asr_model (fun _ => "g") (fun _ => "h") "t1"
          { history := some { rev := some 5 } }).history.rev <
        (put_asr_model (fun _ => "g") (fun _ => "h") "t2"
          { history := some { rev := some 0 } }).history.rev := by
  refine ⟨rfl, rfl, ?_⟩
  rw [put_asr_model_history, put_asr_model_history]
  decide

/-- C2 (amended): every save through the PUT endpoint stores a document
whose `history.rev` is exactly the *submitted* body's revision plus one
(defaulting to 1 when absent) and whose `updated_at` is the save time;
consequently the stored revision is strictly increasing across saves
whenever each save submits the previously stored document's history (the
GET-modify-PUT editing cycle). -/
theorem c2_rev_bump_from_submitted (genId : Nat → String) (sha : String → String)
    (now : String) (body : AsrDict) :
    (put_asr_model genId sha now body).history.rev
        = (body.history.getD {}).rev.getD 1 + 1 ∧
    (put_asr_model genId sha now body).history.updated_at = now ∧
    ∀ (genId' : Nat → String) (sha' : String → String) (now' : String)
      (body' : AsrDict),
      (body'.history.getD {}).rev.getD 1
          = (put_asr_model genId sha now body).history.rev →
      (put_asr_model genId sha now body).history.rev
        < (put_asr_model genId' sha' now' body').history.rev := by
  refine ⟨by rw [put_asr_model_history], by rw [put_asr_model_history], ?_⟩
  intro genId' sha' now' body' h
  rw [put_asr_model_history genId' sha' now' body', put_asr_model_history] at *
  simp only [h]
  omega

theorem c2_rev_bump_from_submitted_witness :
    (put_asr_model (fun _ => "a") (fun s => s) "t1" {}).history.rev
        = (({} : AsrDict).history.getD {}).rev.getD 1 + 1 ∧
    (put_asr_model (fun _ => "a") (fun s => s) "t1" {}).history.updated_at = "t1" ∧
    (put_asr_model (fun _ => "a") (fun s => s) "t1" {}).history.rev
      < (put_asr_model (fun _ => "b") (fun s => s) "t2"
          { history := some { rev := some 2 } }).history.rev := by
  have h := c2_rev_bump_from_submitted (fun _ => "a") (fun s => s) "t1" {}
  exact ⟨h.1, h.2.1, h.2.2 (fun _ => "b") (fun s => s) "t2"
    { history := some { rev := some 2 } } (by decide)⟩

/-- C9: after every save through the PUT endpoint, the written document is
self-consistent — the fingerprint value embedded in the serialized
document equals the canonical fingerprint recomputed (via
`compute_fingerprint`) from the document's own segments (both on the
in-memory model and across a parse of the written dict), because the
endpoint recomputes the fingerprint after the revision bump and overlap
detection and before the atomic write. -/
theorem c9_saved_doc_self_consistent (genId genId' : Nat → String)
    (sha : String → String) (now : String) (body : AsrDict) :
    ((put_asr_model genId sha now body).to_dict.fingerprint.getD {}).value.getD ""
        = (AsrModel.from_dict genId'
            (put_asr_model genId sha now body).to_dict).compute_fingerprint sha ∧
    (put_asr_model genId sha now body).fingerprint.value
        = (put_asr_model genId sha now body).compute_fingerprint sha := by
  constructor
  · rw [to_dict_fp_value,
      compute_fingerprint_eq_of_core sha
        (from_to_dict_core genId' (put_asr_model genId sha now body))]
    exact (update_fingerprint_value sha _).trans
      (compute_update_fingerprint sha _).symm
  · exact (update_fingerprint_value sha _).trans
      (compute_update_fingerprint sha _).symm

/-! ### Concrete sample documents for witnesses -/

/-- A sample segment carrying non-default values in every field. -/
def sampleSegA : AsrSegment :=
  { id := "seg_0a1b2c3d", start_ms := 0, end_ms := 1200, text := "你好",
    speaker := "1", text_en := "hello", emotion := "happy", type := "speech",
    gender := some "F", tts_policy := some [("rate", "fast")],
    flags := { overlap := true, needs_review := true } }

/-- Same seven fingerprint-core fields as `sampleSegA`, every other field
different. -/
def sampleSegA' : AsrSegment :=
  { id := "seg_0a1b2c3d", start_ms := 0, end_ms := 1200, text := "你好",
    speaker := "1", text_en := "hello", emotion := "happy", type := "singing",
    gender := none, tts_policy := none, flags := {} }

def sampleDocA : AsrModel := { segments := [sampleSegA] }

/-- Same segment cores as `sampleDocA`, different media, history and
fingerprint record. -/
def sampleDocA' : AsrModel :=
  { media := { duration_ms := 99 }, segments := [sampleSegA'],
    history := { rev := 7, created_at := "c", updated_at := "u" },
    fingerprint := { value := "zz" } }

theorem c1_fingerprint_canonical_witness :
    sampleDocA.compute_fingerprint (fun s => s)
        = (fun s : String => s) (specCanonicalEncoding sampleDocA.segments) ∧
    sampleDocA.compute_fingerprint (fun s => s)
        = sampleDocA'.compute_fingerprint (fun s => s) :=
  c1_fingerprint_canonical (fun s => s) sampleDocA sampleDocA' (by rfl)

/-! ### C10: dict round trip -/

theorem ofSegDict_toSegDict (fresh : String) (s : AsrSegment)
    (h : s.tts_policy ≠ some []) :
    AsrSegment.ofSegDict fresh s.toSegDict = s := by
  obtain ⟨i, sms, ems, tx, sp, ten, em, ty, g, tp, ⟨ov, nr⟩⟩ := s
  cases tp with
  | none => rfl
  | some p =>
      have hp : ¬ p = [] := by
        intro he
        exact h (by rw [he])
      simp [AsrSegment.ofSegDict, AsrSegment.toSegDict, hp]

theorem mapIdx_ofSegDict_toSegDict (g : Nat → String) :
    ∀ l : List AsrSegment, (∀ s ∈ l, s.tts_policy ≠ some []) →
      (l.map AsrSegment.toSegDict).mapIdx
          (fun i sd => AsrSegment.ofSegDict (g i) sd) = l
  | [], _ => rfl
  | a :: l, h => by
      simp only [List.map_cons, List.mapIdx_cons]
      exact congrArg₂ List.cons
        (ofSegDict_toSegDict (g 0) a (h a (List.mem_cons_self a l)))
        (mapIdx_ofSegDict_toSegDict (fun i => g (i + 1)) l
          (fun s hs => h s (List.mem_cons_of_mem a hs)))

/-- A document one of whose segments has `tts_policy` set to the empty
dict. -/
def emptyPolicyDoc : AsrModel :=
  { schema := "asr.model.v2"
    segments := [{ id := "seg_01", start_ms := 0, end_ms := 1, text := "a",
                   speaker := "0", tts_policy := some [] }] }

/-- C10 counterexample: a document one of whose segments carries an empty
`tts_policy` dict does not survive the round trip — `to_dict` drops the
key (Python truthiness treats `\x7b\x7d` as false) and `from_dict` reads
it back as `None`. -/
theorem c10_roundtrip_counterexample :
    AsrModel.from_dict (fun _ => "fresh") emptyPolicyDoc.to_dict
      ≠ emptyPolicyDoc := by
  decide

/-- C10 (amended): `from_dict ∘ to_dict` reproduces the document exactly —
media, segments with every field, history and fingerprint — for every
document whose `schema` is `"asr.model.v2"` and in which no segment's
`tts_policy` is an empty dict (an empty dict is not serialized and comes
back as `None`; any other value, including absent, round-trips). -/
theorem c10_roundtrip (genId : Nat → String) (m : AsrModel)
    (hs : m.schema = "asr.model.v2")
    (hp : ∀ s ∈ m.segments, s.tts_policy ≠ some []) :
    AsrModel.from_dict genId m.to_dict = m := by
  obtain ⟨sch, ⟨dur⟩, segs, ⟨rev, ca, ua⟩, ⟨al, v, sc⟩⟩ := m
  simp only [AsrModel.from_dict, AsrModel.to_dict, Option.getD_some] at hs ⊢
  rw [mapIdx_ofSegDict_toSegDict genId segs hp, hs]

theorem c10_roundtrip_witness :
    AsrModel.from_dict (fun _ => "seg_fresh00") sampleDocA'.to_dict = sampleDocA' ∧
    AsrModel.from_dict (fun _ => "seg_fresh00") sampleDocA.to_dict = sampleDocA := by
  constructor
  · exact c10_roundtrip (fun _ => "seg_fresh00") sampleDocA' (by rfl) (by decide)
  · exact c10_roundtrip (fun _ => "seg_fresh00") sampleDocA (by rfl) (by decide)

/-! ### Phase registry (`dubora/pipeline/phases/__init__.py`) -/

/-- Static metadata of one registered phase (the `_LazyPhase` proxy's
declarative part; the lazy implementation loader is irrelevant to the
claims). -/
structure PhaseSpec where
  name : String
  version : String
  requires : List String
  provides : List String
  label : String
deriving DecidableEq, Repr

/-- `build_phases`: the ordered phase registry.  The only
config-sensitive bit is the ASR input artifact
(`asr_use_vocals`). -/
def build_phases (asr_use_vocals : Bool) : List PhaseSpec :=
  let asr_input := if asr_use_vocals then "extract.vocals" else "extract.audio"
  [ { name := "extract", version := "1.0.0", requires := [],
      provides := ["extract.audio", "extract.vocals", "extract.accompaniment"],
      label := "提取" },
    { name := "asr", version := "1.0.0", requires := [asr_input],
      provides := ["asr.asr_result"], label := "语音识别" },
    { name := "parse", version := "1.1.0", requires := ["asr.asr_result"],
      provides := ["dub.dub_manifest"], label := "生成字幕" },
    { name := "reseg", version := "1.0.0",
      requires := ["dub.dub_manifest", "asr.asr_result"],
      provides := ["dub.dub_manifest"], label := "断句优化" },
    { name := "mt", version := "1.1.0", requires := ["dub.dub_manifest"],
      provides := ["mt.mt_input", "mt.mt_output"], label := "翻译" },
    { name := "align", version := "1.1.0",
      requires := ["mt.mt_output", "extract.audio"],
      provides := ["subs.en_srt", "dub.dub_manifest"], label := "对齐" },
    { name := "tts", version := "1.1.0", requires := ["dub.dub_manifest"],
      provides := ["tts.segments_dir", "tts.segments_index", "tts.report",
                   "tts.voice_assignment"],
      label := "语音合成" },
    { name := "mix", version := "2.1.0",
      requires := ["dub.dub_manifest", "tts.segments_dir", "tts.report"],
      provides := ["mix.audio"], label := "混音" },
    { name := "burn", version := "1.0.0",
      requires := ["mix.audio", "subs.en_srt"],
      provides := ["burn.video"], label := "烧字幕" } ]

/-- Edge of the raw provides→requires graph over registry positions:
phase `i` provides some artifact key that phase `j` requires. -/
def phaseEdgeB (l : List PhaseSpec) (i j : Nat) : Bool :=
  match l.get? i, l.get? j with
  | some p, some q => p.provides.any (fun k => q.requires.contains k)
  | _, _ => false

/-- Propositional form of `phaseEdgeB`. -/
def phaseEdge (l : List PhaseSpec) (i j : Nat) : Prop :=
  phaseEdgeB l i j = true

/-- C8 counterexample: the directed graph of provides→requires edges over
the registry contains a cycle — reseg (3) → mt (4) → align (5) →
reseg (3): `dub.dub_manifest` is provided by parse, reseg *and* align,
so provider→requirer edges also run backwards in the list, and the graph
is not acyclic (an acyclic relation has an irreflexive transitive
closure). -/
theorem c8_registry_cycle_counterexample :
    Relation.TransGen (phaseEdge (build_phases false)) 3 3 := by
  have e34 : phaseEdge (build_phases false) 3 4 := by
    unfold phaseEdge
    decide
  have e45 : phaseEdge (build_phases false) 4 5 := by
    unfold phaseEdge
    decide
  have e53 : phaseEdge (build_phases false) 5 3 := by
    unfold phaseEdge
    decide
  exact Relation.TransGen.tail
    (Relation.TransGen.tail (Relation.TransGen.single e34) e45) e53

/-- C8 (amended): the registry order is a valid linearization of the
pipeline's dataflow under artifact-replacement semantics: for both
configurations, every artifact key in a phase's `requires` list is
provided by some strictly earlier phase in the list (so each require,
resolved to its most recent earlier provider, yields only forward
edges).  The raw provider→requirer graph itself is *not* acyclic,
because `dub.dub_manifest` has three providers (see the
counterexample). -/
theorem c8_requires_provided_earlier (b : Bool) :
    ∀ i : Fin (build_phases b).length,
      ∀ k ∈ ((build_phases b).get i).requires,
        ∃ j : Fin (build_phases b).length,
          j.val < i.val ∧ k ∈ ((build_phases b).get j).provides := by
  cases b <;> decide

theorem c8_requires_provided_earlier_witness :
    ∃ j : Fin (build_phases false).length,
      j.val < 8 ∧ "mix.audio" ∈ ((build_phases false).get j).provides := by
  have h := c8_requires_provided_earlier false ⟨8, by decide⟩ "mix.audio" (by decide)
  exact h

/-! ### Pipeline web API (`dubora/web/api/pipeline.py`) -/

/-- The hardcoded 9-name phase list at the top of
`dubora/web/api/pipeline.py`. -/
def PHASE_NAMES : List String :=
  ["demux", "sep", "asr", "sub", "mt", "align", "tts", "mix", "burn"]

/-- The workspace lock key `f"{drama}/{ep}"`. -/
def lockKey (drama ep : String) : String := drama ++ "/" ++ ep

/-- Body of a run request (`{"from_phase": ..., "to_phase": ...}`);
`none` models an absent key. -/
structure RunStreamRequest where
  from_phase : Option String := none
  to_phase : Option String := none
deriving DecidableEq, Repr

/-- The `--from`/`--to` arguments of the CLI run the streaming endpoint
spawns. -/
structure StreamPlan where
  from_phase : String
  to_phase : String
deriving DecidableEq, Repr

/-- Outcome of the `run-stream` endpoint: an `HTTPException` with a
status code, or a started run with its plan. -/
inductive RunStreamResult where
  | httpError (status : Nat)
  | started (plan : StreamPlan)
deriving DecidableEq, Repr

/-- `run_pipeline_stream` (POST `run-stream`): concurrency guard on the
in-memory `_running` map keyed by `drama/ep`, then video lookup, then the
SSE stream spawning `dubora.cli run --from ... --to ...` with defaults
`"mt"`/`"burn"`.  The pair's second component is the `_running` key set
after the endpoint's effect (the spawned process is registered under the
lock key; an error registers nothing). -/
def run_pipeline_stream (running : List String) (drama ep : String)
    (videoExists : Bool) (body : Option RunStreamRequest) :
    RunStreamResult × List String :=
  let key := lockKey drama ep
  if key ∈ running then (.httpError 409, running)
  else if !videoExists then (.httpError 404, running)
  else
    let b := body.getD {}
    let fp := b.from_phase.getD "mt"
    let tp := b.to_phase.getD "burn"
    (.started { from_phase := fp, to_phase := tp }, key :: running)

/-- C4: per-workspace mutual exclusion — while a runner is registered in
the `_running` map for a workspace, a second streaming run request for
the same workspace fails with HTTP 409 and registers no second runner;
when none is registered (and the video exists), the request proceeds and
starts a run. -/
theorem c4_mutual_exclusion (running : List String) (drama ep : String)
    (videoExists : Bool) (body : Option RunStreamRequest) :
    (lockKey drama ep ∈ running →
      run_pipeline_stream running drama ep videoExists body
        = (.httpError 409, running)) ∧
    (lockKey drama ep ∉ running → videoExists = true →
      ∃ plan, run_pipeline_stream running drama ep videoExists body
        = (.started plan, lockKey drama ep :: running)) := by
  constructor
  · intro h
    simp [run_pipeline_stream, h]
  · intro h hv
    subst hv
    refine ⟨{ from_phase := (body.getD {}).from_phase.getD "mt"
              to_phase := (body.getD {}).to_phase.getD "burn" }, ?_⟩
    simp [run_pipeline_stream, h]

theorem c4_mutual_exclusion_witness :
    run_pipeline_stream ["d/1"] "d" "1" true none = (.httpError 409, ["d/1"]) ∧
    ∃ plan, run_pipeline_stream [] "d" "1" true none
        = (.started plan, ["d/1"]) := by
  refine ⟨?_, ?_⟩
  · exact (c4_mutual_exclusion ["d/1"] "d" "1" true none).1 (by decide)
  · exact (c4_mutual_exclusion [] "d" "1" true none).2 (by decide) rfl

/-- C5 counterexample: a streaming run request with no body (hence no
`from_phase`) spawns a run with `--from mt`, and `mt` is at index 4 of
the registry order, whose first phase is `extract` — not a run starting
at index 0. -/
theorem c5_default_from_counterexample :
    run_pipeline_stream [] "d" "1" true none
        = (.started { from_phase := "mt", to_phase := "burn" }, ["d/1"]) ∧
    ((build_phases false).map PhaseSpec.name).head? = some "extract" ∧
    ((build_phases false).map PhaseSpec.name).indexOf "mt" = 4 := by
  refine ⟨?_, by decide, by decide⟩
  decide

/-- C5 (amended): when `from_phase` is omitted from the streaming request,
the endpoint defaults it to `"mt"` and launches the run from there —
registry index 4 — so the run *is* restricted to a later starting phase,
not started at index 0. -/
theorem c5_default_from_mt (running : List String) (drama ep : String)
    (body : Option RunStreamRequest)
    (hk : lockKey drama ep ∉ running)
    (hb : (body.getD {}).from_phase = none) :
    run_pipeline_stream running drama ep true body
        = (.started { from_phase := "mt"
                      to_phase := (body.getD {}).to_phase.getD "burn" },
           lockKey drama ep :: running) ∧
    ((build_phases false).map PhaseSpec.name).indexOf "mt" = 4 ∧
    ((build_phases true).map PhaseSpec.name).indexOf "mt" = 4 := by
  refine ⟨?_, by decide, by decide⟩
  simp [run_pipeline_stream, hk, hb]

theorem c5_default_from_mt_witness :
    run_pipeline_stream ["x/2"] "d" "1" true (some { to_phase := some "tts" })
        = (.started { from_phase := "mt", to_phase := "tts" }, ["d/1", "x/2"]) ∧
    ((build_phases false).map PhaseSpec.name).indexOf "mt" = 4 ∧
    ((build_phases true).map PhaseSpec.name).indexOf "mt" = 4 := by
  have h := c5_default_from_mt ["x/2"] "d" "1" (some { to_phase := some "tts" })
    (by decide) rfl
  exact h

/-! ### Cancellation and stream termination -/

/-- Outcome of the cancel endpoint. -/
inductive CancelResult where
  | notFound (status : Nat)
  | cancelled (killedPid : Nat)
deriving DecidableEq, Repr

/-- `cancel_pipeline` (POST `cancel`): look the workspace key up in the
`_running` map (`drama/ep → process`); 404 when absent; otherwise kill
the process and pop the key.  Processes are identified by a pid
stand-in. -/
def cancel_pipeline (running : List (String × Nat)) (drama ep : String) :
    CancelResult × List (String × Nat) :=
  let key := lockKey drama ep
  match List.lookup key running with
  | none => (.notFound 404, running)
  | some pid => (.cancelled pid, running.filter (fun p => p.1 ≠ key))

/-- How the SSE generator in `run_pipeline_stream` terminates. -/
inductive StreamTermination where
  | processExited (returncode : Int)
  | generatorCancelled
  | internalError (message : String)
deriving DecidableEq, Repr

/-- Payload of one SSE event. -/
inductive EventPayload where
  | logLine (line : String)
  | phaseName (name : String)
  | doneCode (returncode : Int)
  | errorMessage (message : String)
deriving DecidableEq, Repr

/-- One SSE event (`event: <type>` plus its `data:` payload). -/
structure SseEvent where
  event : String
  payload : EventPayload
deriving DecidableEq, Repr

/-- The final event(s) the `event_stream` generator emits for each way it
can terminate: on process exit (stdout EOF, `proc.wait()` returned) a
`done` event carrying the return code; on `asyncio.CancelledError`
(generator teardown, i.e. client disconnect) an `error` event
`"Pipeline cancelled"`; on any other exception an `error` event with the
exception text. -/
def terminationEvents : StreamTermination → List SseEvent
  | .processExited rc => [{ event := "done", payload := .doneCode rc }]
  | .generatorCancelled =>
      [{ event := "error", payload := .errorMessage "Pipeline cancelled" }]
  | .internalError msg => [{ event := "error", payload := .errorMessage msg }]

/-- C6 counterexample: cancelling kills and deregisters the running
process, but when the stream controller then observes the process exit
(return code −9 after the kill) it emits a `done` event with that return
code — no `error` event, and no event whose message is `"cancelled"`. -/
theorem c6_cancel_event_counterexample :
    cancel_pipeline [("d/1", 42)] "d" "1" = (.cancelled 42, []) ∧
    terminationEvents (.processExited (-9))
        = [{ event := "done", payload := .doneCode (-9) }] ∧
    ((terminationEvents (.processExited (-9))).all
        (fun e => e.event ≠ "error")) = true ∧
    ((terminationEvents (.processExited (-9))).all
        (fun e => e.payload ≠ .errorMessage "cancelled")) = true := by
  refine ⟨by decide, rfl, by decide, by decide⟩

/-- C6 (amended): the cancel endpoint kills the runner registered for the
workspace and removes it from the `_running` map (404 when none); the
stream for that run, upon observing the process exit, emits a `done`
event carrying the process return code; an `error` event
`"Pipeline cancelled"` is emitted only when the SSE generator itself is
cancelled (client disconnect), not on the cancel-endpoint path. -/
theorem c6_cancel_behavior (running : List (String × Nat)) (drama ep : String)
    (pid : Nat) (h : List.lookup (lockKey drama ep) running = some pid) :
    cancel_pipeline running drama ep
        = (.cancelled pid,
           running.filter (fun p => p.1 ≠ lockKey drama ep)) ∧
    (∀ rc : Int, terminationEvents (.processExited rc)
        = [{ event := "done", payload := .doneCode rc }]) ∧
    terminationEvents .generatorCancelled
        = [{ event := "error", payload := .errorMessage "Pipeline cancelled" }] := by
  refine ⟨?_, fun rc => rfl, rfl⟩
  simp [cancel_pipeline, h]

theorem c6_cancel_behavior_witness :
    cancel_pipeline [("d/1", 7), ("x/2", 9)] "d" "1"
        = (.cancelled 7,
           [("d/1", 7), ("x/2", 9)].filter (fun p => p.1 ≠ lockKey "d" "1")) ∧
    (∀ rc : Int, terminationEvents (.processExited rc)
        = [{ event := "done", payload := .doneCode rc }]) ∧
    terminationEvents .generatorCancelled
        = [{ event := "error", payload := .errorMessage "Pipeline cancelled" }] := by
  exact c6_cancel_behavior [("d/1", 7), ("x/2", 9)] "d" "1" 7 (by decide)

/-! ### Status endpoint (`pipeline_status` / `_read_manifest_phases`) -/

/-- Dict view of one phase record as read from `manifest.json` by the
status endpoint; `none` models an absent key.  (A key present with an
empty dict, which Python truthiness would also treat as no record, is
represented by absence from the phases table.) -/
structure PhaseStatusDict where
  status : Option String := none
  started_at : Option String := none
  finished_at : Option String := none
  skipped : Option Bool := none
  metrics : Option (List (String × Int)) := none
  error : Option String := none
deriving DecidableEq, Repr

/-- One entry of the status endpoint's `phases` list. -/
structure PhaseStatusEntry where
  name : String
  status : String
  started_at : Option String
  finished_at : Option String
  skipped : Bool
  metrics : List (String × Int)
  error : Option String
deriving DecidableEq, Repr

/-- `_read_manifest_phases`: for each of the nine hardcoded `PHASE_NAMES`,
the recorded summary (fields read with `.get` defaults) or the pending
default when the manifest has no record; when `manifest.json` is absent
the phases table is empty and every entry defaults. -/
def read_manifest_phases (hasManifest : Bool)
    (phasesData : List (String × PhaseStatusDict)) : List PhaseStatusEntry :=
  let pdata := if hasManifest then phasesData else []
  PHASE_NAMES.map (fun name =>
    match List.lookup name pdata with
    | some pd =>
        { name := name
          status := pd.status.getD "pending"
          started_at := pd.started_at
          finished_at := pd.finished_at
          skipped := pd.skipped.getD false
          metrics := pd.metrics.getD []
          error := pd.error }
    | none =>
        { name := name, status := "pending", started_at := none,
          finished_at := none, skipped := false, metrics := [], error := none })

/-- A value of the status endpoint's JSON response object. -/
inductive StatusValue where
  | boolValue (b : Bool)
  | phaseList (entries : List PhaseStatusEntry)
deriving DecidableEq, Repr

/-- `pipeline_status` (GET `pipeline/status`): the response object, as the
ordered list of its keys and values. -/
def pipeline_status (hasManifest : Bool)
    (phasesData : List (String × PhaseStatusDict)) :
    List (String × StatusValue) :=
  [("has_manifest", .boolValue hasManifest),
   ("phases", .phaseList (read_manifest_phases hasManifest phasesData))]

/-- A sample manifest phases table with one recorded phase. -/
def samplePhasesData : List (String × PhaseStatusDict) :=
  [("asr", { status := some "succeeded", skipped := some true })]

/-- C7 counterexample: the status response contains only the keys
`has_manifest` and `phases` — no gate table and no `stages` view — and
its phase list covers the hardcoded names (`demux`, `sep`, `sub`, ...),
not the registered phases: `extract` is a registered phase but has no
entry in the response. -/
theorem c7_status_shape_counterexample :
    (pipeline_status true samplePhasesData).map Prod.fst
        = ["has_manifest", "phases"] ∧
    "gates" ∉ (pipeline_status true samplePhasesData).map Prod.fst ∧
    "stages" ∉ (pipeline_status true samplePhasesData).map Prod.fst ∧
    "extract" ∈ (build_phases false).map PhaseSpec.name ∧
    "extract" ∉ (read_manifest_phases true samplePhasesData).map
        PhaseStatusEntry.name := by
  refine ⟨rfl, by decide, by decide, by decide, by decide⟩

/-- Written from the amended claim: the status entry for one phase name —
the recorded fields with their defaults, or the all-default pending
entry when no record exists. -/
def specStatusEntry (name : String) : Option PhaseStatusDict → PhaseStatusEntry
  | none =>
      { name := name, status := "pending", started_at := none,
        finished_at := none, skipped := false, metrics := [], error := none }
  | some pd =>
      { name := name
        status := pd.status.getD "pending"
        started_at := pd.started_at
        finished_at := pd.finished_at
        skipped := pd.skipped.getD false
        metrics := pd.metrics.getD []
        error := pd.error }

/-- C7 (amended): for every workspace, the status endpoint returns exactly
two keys, `has_manifest` and `phases`; `phases` lists, for each of the
nine hardcoded names `demux, sep, asr, sub, mt, align, tts, mix, burn`
(not the registry's phase names), the recorded status, timestamps,
skipped flag, metrics and error with their defaults (`pending` when no
record exists, or when the manifest file is absent).  No gate table and
no derived stages view is returned. -/
theorem c7_status_response (hasManifest : Bool)
    (pdata : List (String × PhaseStatusDict)) :
    (pipeline_status hasManifest pdata).map Prod.fst
        = ["has_manifest", "phases"] ∧
    List.lookup "has_manifest" (pipeline_status hasManifest pdata)
        = some (.boolValue hasManifest) ∧
    List.lookup "phases" (pipeline_status hasManifest pdata)
        = some (.phaseList (PHASE_NAMES.map (fun n =>
            specStatusEntry n
              (List.lookup n (if hasManifest then pdata else []))))) ∧
    List.lookup "gates" (pipeline_status hasManifest pdata) = none ∧
    List.lookup "stages" (pipeline_status hasManifest pdata) = none := by
  refine ⟨rfl, rfl, ?_, rfl, rfl⟩
  have h : read_manifest_phases hasManifest pdata
      = PHASE_NAMES.map (fun n =>
          specStatusEntry n
            (List.lookup n (if hasManifest then pdata else []))) := by
    simp only [read_manifest_phases]
    exact List.map_congr_left fun n _ => by
      cases List.lookup n (if hasManifest then pdata else []) <;> rfl
  unfold pipeline_status
  rw [h]
  rfl

/-! ### `bless` (`bless_one` in `dubora/cli.py`) -/

/-- Modelled from the spec: the workspace file system seen by `bless`, a
partial map from workspace-relative paths to current file bytes.
`hash_path` from `dubora.pipeline.core.fingerprints` (a module not among
the sources; the spec defines it as SHA-256 of the file's raw bytes) is
embedded as the abstract digest `sha` applied to the mapped bytes. -/
abbrev FileSystem := String → Option String

/-- Modelled from the spec: one artifact record of the manifest
(`dubora.pipeline.core.manifest.Manifest` is not among the sources; the
record keeps the fields `bless_one` reads with `.get`: `relpath` and
`fingerprint`, the latter defaulting to `""`). -/
structure ArtifactEntry where
  relpath : Option String := none
  fingerprint : Option String := none
deriving DecidableEq, Repr

/-- Modelled from the spec: a per-phase manifest record — execution
metadata plus the phase's output-artifact table that `bless_one` reads
as `phase_data.get("artifacts", ...)`. -/
structure PhaseData where
  status : Option String := none
  started_at : Option String := none
  finished_at : Option String := none
  artifacts : List (String × ArtifactEntry) := []
deriving DecidableEq, Repr

/-- Modelled from the spec: the manifest as `bless_one` touches it — the
per-phase records and the top-level artifacts table. -/
structure ManifestData where
  phases : List (String × PhaseData) := []
  artifacts : List (String × ArtifactEntry) := []
deriving DecidableEq, Repr

/-- Replace an artifact entry's recorded fingerprint. -/
def setFingerprint (fp : String) (a : ArtifactEntry) : ArtifactEntry :=
  { a with fingerprint := some fp }

/-- `manifest.data["artifacts"][key]["fingerprint"] = new_fp`, guarded by
`if key in manifest.data["artifacts"]`. -/
def updateTopArtifact (key fp : String)
    (l : List (String × ArtifactEntry)) : List (String × ArtifactEntry) :=
  if (List.lookup key l).isSome then
    l.map (fun p => if p.1 = key then (p.1, setFingerprint fp p.2) else p)
  else l

/-- The per-artifact loop of `bless_one`, processing the phase's artifact
entries in order while threading the top-level artifacts table and the
update counter: entries without a `relpath`, without a file on disk, or
whose recorded fingerprint already equals the recomputed one are kept
as-is; otherwise the entry's fingerprint is replaced and the top-level
table entry (when present) is updated alongside. -/
def bless_artifacts (sha : String → String) (fs : FileSystem)
    (top : List (String × ArtifactEntry)) :
    List (String × ArtifactEntry) →
      List (String × ArtifactEntry) × List (String × ArtifactEntry) × Nat
  | [] => ([], top, 0)
  | (key, ad) :: rest =>
    match ad.relpath with
    | none =>
        let r := bless_artifacts sha fs top rest
        ((key, ad) :: r.1, r.2.1, r.2.2)
    | some rp =>
      match fs rp with
      | none =>
          let r := bless_artifacts sha fs top rest
          ((key, ad) :: r.1, r.2.1, r.2.2)
      | some content =>
        let new_fp := sha content
        if ad.fingerprint.getD "" = new_fp then
          let r := bless_artifacts sha fs top rest
          ((key, ad) :: r.1, r.2.1, r.2.2)
        else
          let r := bless_artifacts sha fs (updateTopArtifact key new_fp top) rest
          ((key, setFingerprint new_fp ad) :: r.1, r.2.1, r.2.2 + 1)

/-- Replace a phase record's artifact table. -/
def setArtifacts (a : List (String × ArtifactEntry)) (pd : PhaseData) : PhaseData :=
  { pd with artifacts := a }

/-- `bless_one` from `dubora/cli.py` (the per-workspace body of the
`bless` CLI command): `none` models the early `return False` paths — no
record for the phase, or a phase record with no output artifacts.  On
success the returned manifest carries the re-fingerprinted phase
artifact table and the updated top-level table (the source then saves it
via the manifest's atomic write when at least one fingerprint changed);
the `Nat` is the `updated` counter.  No phase implementation is loaded
or run anywhere on this path. -/
def bless_one (sha : String → String) (fs : FileSystem)
    (m : ManifestData) (phase : String) : Option (ManifestData × Nat) :=
  match List.lookup phase m.phases with
  | none => none
  | some pd =>
    if pd.artifacts = [] then none
    else
      let r := bless_artifacts sha fs m.artifacts pd.artifacts
      some ({ phases := m.phases.map
                (fun p => if p.1 = phase then (p.1, setArtifacts r.1 p.2) else p)
              artifacts := r.2.1 }, r.2.2)

/-- What one artifact entry becomes under `bless`: its fingerprint
replaced by the digest of the current bytes at its recorded relpath
(unchanged when no relpath, no file, or already current). -/
def blessEntry (sha : String → String) (fs : FileSystem)
    (ad : ArtifactEntry) : ArtifactEntry :=
  match ad.relpath with
  | none => ad
  | some rp =>
    match fs rp with
    | none => ad
    | some content =>
        if ad.fingerprint.getD "" = sha content then ad
        else setFingerprint (sha content) ad

theorem lookup_cons {β : Type} (k k' : String) (v : β) (l : List (String × β)) :
    List.lookup k ((k', v) :: l) = if k = k' then some v else List.lookup k l := by
  by_cases h : k = k'
  · simp [List.lookup, h]
  · have hb : (k == k') = false := beq_eq_false_iff_ne.mpr h
    simp [List.lookup, hb, h]

theorem lookup_none_of_not_mem {β : Type} (k : String) :
    ∀ l : List (String × β), k ∉ l.map Prod.fst → List.lookup k l = none
  | [], _ => rfl
  | (k0, v0) :: l, h => by
      simp only [List.map_cons, List.mem_cons, not_or] at h
      rw [lookup_cons, if_neg h.1]
      exact lookup_none_of_not_mem k l h.2

theorem lookup_map_update {β : Type} (key k : String) (f : β → β) :
    ∀ l : List (String × β),
      List.lookup k (l.map (fun p => if p.1 = key then (p.1, f p.2) else p))
        = if k = key then (List.lookup k l).map f else List.lookup k l
  | [] => by by_cases h : k = key <;> simp [h]
  | (k0, v0) :: l => by
      have ih := lookup_map_update key k f l
      by_cases h0 : k0 = key <;> by_cases hk : k = k0
      · have hkey : k = key := hk.trans h0
        simp [lookup_cons, h0, hk, hkey]
      · have hkey : ¬ k = key := fun he => hk (he.trans h0.symm)
        simp [lookup_cons, h0, hk, hkey, ih]
      · have hkey : ¬ k = key := fun he => h0 (hk.symm.trans he)
        simp [lookup_cons, h0, hk, hkey]
      · simp [lookup_cons, h0, hk, ih]

theorem lookup_updateTop_self (k fp : String) (l : List (String × ArtifactEntry)) :
    List.lookup k (updateTopArtifact k fp l)
      = (List.lookup k l).map (setFingerprint fp) := by
  by_cases hg : (List.lookup k l).isSome
  · rw [updateTopArtifact, if_pos hg, lookup_map_update, if_pos rfl]
  · rw [updateTopArtifact, if_neg hg]
    rw [Option.not_isSome_iff_eq_none] at hg
    simp [hg]

theorem lookup_updateTop_ne (k key fp : String) (l : List (String × ArtifactEntry))
    (h : k ≠ key) :
    List.lookup k (updateTopArtifact key fp l) = List.lookup k l := by
  by_cases hg : (List.lookup key l).isSome
  · rw [updateTopArtifact, if_pos hg, lookup_map_update, if_neg h]
  · rw [updateTopArtifact, if_neg hg]

theorem bless_artifacts_fst (sha : String → String) (fs : FileSystem) :
    ∀ (l : List (String × ArtifactEntry)) (top : List (String × ArtifactEntry)),
      (bless_artifacts sha fs top l).1
        = l.map (fun p => (p.1, blessEntry sha fs p.2))
  | [], _ => rfl
  | (key, ad) :: l, top => by
      cases had : ad.relpath with
      | none => simp [bless_artifacts, blessEntry, had, bless_artifacts_fst sha fs l]
      | some rp =>
        cases hfs : fs rp with
        | none =>
            simp [bless_artifacts, blessEntry, had, hfs, bless_artifacts_fst sha fs l]
        | some c =>
          by_cases hfp : ad.fingerprint.getD "" = sha c
          · simp [bless_artifacts, blessEntry, had, hfs, hfp,
              bless_artifacts_fst sha fs l]
          · simp [bless_artifacts, blessEntry, had, hfs, hfp,
              bless_artifacts_fst sha fs l]

theorem bless_artifacts_top_not_mem (sha : String → String) (fs : FileSystem)
    (k : String) :
    ∀ (l : List (String × ArtifactEntry)) (top : List (String × ArtifactEntry)),
      k ∉ l.map Prod.fst →
      List.lookup k (bless_artifacts sha fs top l).2.1 = List.lookup k top
  | [], _, _ => rfl
  | (key, ad) :: l, top, h => by
      simp only [List.map_cons, List.mem_cons, not_or] at h
      cases had : ad.relpath with
      | none =>
          simp only [bless_artifacts, had]
          exact bless_artifacts_top_not_mem sha fs k l top h.2
      | some rp =>
        cases hfs : fs rp with
        | none =>
            simp only [bless_artifacts, had, hfs]
            exact bless_artifacts_top_not_mem sha fs k l top h.2
        | some c =>
          by_cases hfp : ad.fingerprint.getD "" = sha c
          · simp only [bless_artifacts, had, hfs, if_pos hfp]
            exact bless_artifacts_top_not_mem sha fs k l top h.2
          · simp only [bless_artifacts, had, hfs, if_neg hfp]
            rw [bless_artifacts_top_not_mem sha fs k l _ h.2,
              lookup_updateTop_ne k key (sha c) top h.1]

theorem bless_artifacts_top_lookup (sha : String → String) (fs : FileSystem) :
    ∀ (l : List (String × ArtifactEntry)) (top : List (String × ArtifactEntry)),
      (l.map Prod.fst).Nodup →
      (∀ k a, List.lookup k l = some a →
        ∀ ta, List.lookup k top = some ta → ta.fingerprint = a.fingerprint) →
      ∀ key ad rp c, List.lookup key l = some ad → ad.relpath = some rp →
        fs rp = some c →
        ∀ ta, List.lookup key (bless_artifacts sha fs top l).2.1 = some ta →
          ta.fingerprint.getD "" = sha c
  | [], _, _, _, key, _, _, _, hk, _, _, _, _ => by simp [List.lookup] at hk
  | (k0, a0) :: l, top, hnd, hagree, key, ad, rp, c, hk, had, hfs, ta, hta => by
      simp only [List.map_cons, List.nodup_cons] at hnd
      rw [lookup_cons] at hk
      have hagreeTail : ∀ top' : List (String × ArtifactEntry),
          (∀ k, k ≠ k0 → List.lookup k top' = List.lookup k top) →
          ∀ k a, List.lookup k l = some a →
            ∀ ta', List.lookup k top' = some ta' → ta'.fingerprint = a.fingerprint := by
        intro top' hsame k a hka ta' hta'
        have hkk0 : k ≠ k0 := by
          intro he
          rw [he, lookup_none_of_not_mem k0 l hnd.1] at hka
          exact Option.noConfusion hka
        rw [hsame k hkk0] at hta'
        exact hagree k a (by rw [lookup_cons, if_neg hkk0]; exact hka) ta' hta'
      by_cases hkey : key = k0
      · rw [if_pos hkey] at hk
        have had0 : a0 = ad := Option.some.inj hk
        subst had0
        subst hkey
        by_cases hfp : a0.fingerprint.getD "" = sha c
        · simp only [bless_artifacts, had, hfs, if_pos hfp] at hta
          rw [bless_artifacts_top_not_mem sha fs key l top hnd.1] at hta
          have := hagree key a0 (by rw [lookup_cons, if_pos rfl]) ta hta
          rw [this]
          exact hfp
        · simp only [bless_artifacts, had, hfs, if_neg hfp] at hta
          rw [bless_artifacts_top_not_mem sha fs key l _ hnd.1,
            lookup_updateTop_self] at hta
          cases h0 : List.lookup key top with
          | none => rw [h0] at hta; exact Option.noConfusion hta
          | some ta0 =>
              rw [h0] at hta
              rw [← Option.some.inj hta]
              rfl
      · rw [if_neg hkey] at hk
        cases ha0 : a0.relpath with
        | none =>
            simp only [bless_artifacts, ha0] at hta
            exact bless_artifacts_top_lookup sha fs l top hnd.2
              (hagreeTail top (fun _ _ => rfl)) key ad rp c hk had hfs ta hta
        | some rp0 =>
          cases hfs0 : fs rp0 with
          | none =>
              simp only [bless_artifacts, ha0, hfs0] at hta
              exact bless_artifacts_top_lookup sha fs l top hnd.2
                (hagreeTail top (fun _ _ => rfl)) key ad rp c hk had hfs ta hta
          | some c0 =>
            by_cases hfp0 : a0.fingerprint.getD "" = sha c0
            · simp only [bless_artifacts, ha0, hfs0, if_pos hfp0] at hta
              exact bless_artifacts_top_lookup sha fs l top hnd.2
                (hagreeTail top (fun _ _ => rfl)) key ad rp c hk had hfs ta hta
            · simp only [bless_artifacts, ha0, hfs0, if_neg hfp0] at hta
              exact bless_artifacts_top_lookup sha fs l
                (updateTopArtifact k0 (sha c0) top) hnd.2
                (hagreeTail _ (fun k hkk =>
                  lookup_updateTop_ne k k0 (sha c0) top hkk))
                key ad rp c hk had hfs ta hta

/-- C3 (manifest and `hash_path` modelled from the spec): for every
manifest with a record for the phase that lists output artifacts — each
entry carrying its recorded relpath and a fingerprint consistent with
the top-level artifacts table — `bless` returns (and then saves) a
manifest in which each such artifact entry's fingerprint has been
replaced by the digest of the current bytes of the file at the
artifact's recorded relpath, both in the phase record's artifact table
and (for keys present there) in the top-level artifacts table; the
phase record is otherwise untouched and no phase implementation is
invoked (`bless_one` contains no phase-run call). -/
theorem c3_bless_refingerprints (sha : String → String) (fs : FileSystem)
    (m : ManifestData) (phase : String) (pd : PhaseData)
    (hph : List.lookup phase m.phases = some pd)
    (hne : pd.artifacts ≠ [])
    (hnd : (pd.artifacts.map Prod.fst).Nodup)
    (hagree : ∀ k a, List.lookup k pd.artifacts = some a →
      ∀ ta, List.lookup k m.artifacts = some ta →
        ta.fingerprint = a.fingerprint) :
    ∃ r : ManifestData × Nat,
      bless_one sha fs m phase = some r ∧
      List.lookup phase r.1.phases
        = some (setArtifacts
            (pd.artifacts.map (fun p => (p.1, blessEntry sha fs p.2))) pd) ∧
      (∀ key ad rp c, List.lookup key pd.artifacts = some ad →
        ad.relpath = some rp → fs rp = some c →
        (blessEntry sha fs ad).fingerprint.getD "" = sha c ∧
        ∀ ta, List.lookup key r.1.artifacts = some ta →
          ta.fingerprint.getD "" = sha c) := by
  refine ⟨({ phases := m.phases.map (fun p => if p.1 = phase then (p.1, setArtifacts (bless_artifacts sha fs m.artifacts pd.artifacts).1 p.2) else p), artifacts := (bless_artifacts sha fs m.artifacts pd.artifacts).2.1 }, (bless_artifacts sha fs m.artifacts pd.artifacts).2.2), ?_, ?_, ?_⟩
  · simp [bless_one, hph, hne]
  · rw [lookup_map_update, if_pos rfl, hph, bless_artifacts_fst]
    rfl
  · intro key ad rp c hk had hfs
    constructor
    · simp only [blessEntry, had, hfs]
      by_cases hfp : ad.fingerprint.getD "" = sha c
      · rw [if_pos hfp]
        exact hfp
      · rw [if_neg hfp]
        rfl
    · intro ta hta
      exact bless_artifacts_top_lookup sha fs pd.artifacts m.artifacts hnd hagree
        key ad rp c hk had hfs ta hta

/-- A sample digest function for the bless witness. -/
def hashW : String → String := fun s => s ++ "#h"

/-- A sample workspace file system with one file. -/
def blessFs : FileSystem := fun p => if p = "subs/en.srt" then some "EDITED" else none

def blessSampleEntry : ArtifactEntry :=
  { relpath := some "subs/en.srt", fingerprint := some "oldfp" }

def blessSamplePhase : PhaseData :=
  { status := some "succeeded", artifacts := [("subs.en_srt", blessSampleEntry)] }

def blessSampleManifest : ManifestData :=
  { phases := [("align", blessSamplePhase)]
    artifacts := [("subs.en_srt", blessSampleEntry)] }

theorem c3_bless_refingerprints_witness :
    ∃ r : ManifestData × Nat,
      bless_one hashW blessFs blessSampleManifest "align" = some r ∧
      List.lookup "align" r.1.phases
        = some (setArtifacts
            (blessSamplePhase.artifacts.map
              (fun p => (p.1, blessEntry hashW blessFs p.2))) blessSamplePhase) ∧
      (∀ key ad rp c, List.lookup key blessSamplePhase.artifacts = some ad →
        ad.relpath = some rp → blessFs rp = some c →
        (blessEntry hashW blessFs ad).fingerprint.getD "" = hashW c ∧
        ∀ ta, List.lookup key r.1.artifacts = some ta →
          ta.fingerprint.getD "" = hashW c) := by
  apply c3_bless_refingerprints hashW blessFs blessSampleManifest "align" blessSamplePhase
  · rfl
  · decide
  · decide
  · intro k a ha ta hta
    by_cases hkk : k = "subs.en_srt"
    · subst hkk
      simp [blessSamplePhase, lookup_cons] at ha
      simp [blessSampleManifest, lookup_cons] at hta
      rw [← ha, ← hta]
    · simp [blessSamplePhase, lookup_cons, hkk] at ha
